import Mathlib

/-!
ChatZilla room registry and signaling relay — a shallow embedding.

This file embeds the in-memory room registry, the join/leave/signal
handlers and the SSE stream attach/close paths of the ChatZilla server
(`index.js` together with `lib/rooms.js`) as pure Lean functions, and
proves properties of the specification against them.

Modelling conventions:
* JS `Map` objects (the room registry and each room's client table) are
  association lists of `(String × _)` pairs; `mapGet`, `mapSet`,
  `mapDelete` mirror `Map.get` / `Map.set` / `Map.delete` (insertion
  order preserved, `set` updates in place, `delete` removes the key).
* An attached SSE response object (`client.res`) is modelled as an
  `Option Nat` stream-handle id; `null` is `none`.
* Writing an event frame to a stream (`sendEvent`) is modelled as
  producing a `Frame` value recording the recipient client id, its
  stream handle, the event name and the payload; handlers return the
  list of frames they wrote, in order.
* Request-body fields are `Option String`; JS falsiness of a missing or
  empty string field is `falsyStr`.
* `handleJoin` returns its observable output as an ordered `Action`
  trace (HTTP response first, then the broadcast frames), mirroring the
  statement order of the source (`res.end(...)` before `broadcast(...)`).
-/

namespace ChatZilla

/-- One client session in a room: `{ name: string, res: ServerResponse | null }`
from `lib/rooms.js`; the nullable response object becomes an optional
stream-handle id. -/
structure Session where
  name : String
  res : Option Nat
deriving Repr, DecidableEq

/-- A room: `{ clients: Map<clientId, Session> }` from `lib/rooms.js`. -/
structure Room where
  clients : List (String × Session)
deriving Repr, DecidableEq

/-- The process-wide registry `rooms = new Map()` from `lib/rooms.js`. -/
abbrev Registry := List (String × Room)

/-- `Map.prototype.get`: first binding of the key, if any. -/
def mapGet {α : Type} (m : List (String × α)) (k : String) : Option α :=
  match m with
  | [] => none
  | e :: rest => if e.1 = k then some e.2 else mapGet rest k

/-- `Map.prototype.set`: update the existing binding in place, else append. -/
def mapSet {α : Type} (m : List (String × α)) (k : String) (v : α) :
    List (String × α) :=
  match m with
  | [] => [(k, v)]
  | e :: rest => if e.1 = k then (k, v) :: rest else e :: mapSet rest k v

/-- `Map.prototype.delete`: remove the binding of the key. -/
def mapDelete {α : Type} (m : List (String × α)) (k : String) :
    List (String × α) :=
  match m with
  | [] => []
  | e :: rest => if e.1 = k then mapDelete rest k else e :: mapDelete rest k

/-- JS falsiness of an optional string field: absent or empty. -/
def falsyStr : Option String → Bool
  | none => true
  | some s => s.isEmpty

/-- The JS builtin `String.prototype.trim`: strip leading and trailing
whitespace (modelled over the character list so the kernel can evaluate
it). -/
def trimString (s : String) : String :=
  ⟨((s.data.dropWhile Char.isWhitespace).reverse.dropWhile
      Char.isWhitespace).reverse⟩

/-- The JS builtin `String.prototype.slice(0, n)`: the first `n`
characters (the source caps at UTF-16 units; code points here). -/
def sliceString (s : String) (n : Nat) : String :=
  ⟨s.data.take n⟩

/-- `room ? String(room).trim() : ''` from `handleJoin` / `api/join.js`. -/
def jsTrim : Option String → String
  | none => ""
  | some s => if s.isEmpty then "" else trimString s

/-- `name ? String(name).trim().slice(0, 64) : ''` from `handleJoin` /
`api/join.js`. -/
def jsName : Option String → String
  | none => ""
  | some s => if s.isEmpty then "" else sliceString (trimString s) 64

/-- Event payloads carried in SSE frames. The `signal` payload's first
field is named `from` in the source; `from` is a Lean keyword, so it is
`fromId` here. -/
inductive Payload where
  | peerJoined (clientId name : String)
  | peerLeft (clientId : String)
  | signal (fromId data : String)
deriving Repr, DecidableEq

/-- One event frame written to one client's SSE stream: `sendEvent(res,
event, payload)` writes `event: <kind>\n data: <json>\n\n` to `res`;
the model records the recipient client id and its stream handle. -/
structure Frame where
  toClient : String
  stream : Nat
  event : String
  payload : Payload
deriving Repr, DecidableEq

/-- `sendEvent(res, event, payload)` from `lib/rooms.js`: one frame on
the given stream. -/
def sendEvent (toClient : String) (stream : Nat) (event : String)
    (payload : Payload) : Frame :=
  ⟨toClient, stream, event, payload⟩

/-- `getRoom(roomId)` from `lib/rooms.js`: create the room if absent,
return (possibly updated) registry together with the room. -/
def getRoom (st : Registry) (roomId : String) : Registry × Room :=
  match mapGet st roomId with
  | some r => (st, r)
  | none => (mapSet st roomId ⟨[]⟩, ⟨[]⟩)

/-- `broadcast(roomId, excludeClientId, event, payload)` from
`lib/rooms.js`: one frame per client of the room that is not the
excluded id and has a non-null stream. -/
def broadcast (st : Registry) (roomId excludeClientId : String)
    (event : String) (payload : Payload) : List Frame :=
  match mapGet st roomId with
  | none => []
  | some room =>
    room.clients.filterMap fun e =>
      if e.1 = excludeClientId then none
      else
        match e.2.res with
        | some h => some (sendEvent e.1 h event payload)
        | none => none

/-- The join response body `{clientId, room, peers}`; `peers` is a list
of `(clientId, name)` pairs. -/
structure JoinBody where
  clientId : String
  room : String
  peers : List (String × String)
deriving Repr, DecidableEq

/-- One observable output step of `handleJoin`, in program order: the
HTTP response (`res.writeHead`/`res.end`) or one broadcast frame. -/
inductive Action where
  | respond (status : Nat) (body : Option JoinBody)
  | deliver (f : Frame)
deriving Repr, DecidableEq

/-- Result of `handleJoin`: the updated registry and the ordered trace
of observable outputs. -/
structure JoinOut where
  st : Registry
  trace : List Action
deriving Repr, DecidableEq

/-- `handleJoin` from `index.js` (the `api/join.js` handler is the same
logic): validate, snapshot the peers, insert the fresh session with a
null stream, respond 200, then broadcast `peer-joined` excluding the
new client. `fresh` stands for the `generateClientId()` output. -/
def handleJoin (st : Registry) (fresh : String) (room name : Option String) :
    JoinOut :=
  let roomId := jsTrim room
  let userName := jsName name
  if roomId.isEmpty || userName.isEmpty then
    ⟨st, [.respond 400 none]⟩
  else
    let res1 := getRoom st roomId
    let st1 := res1.1
    let roomData := res1.2
    let existingPeers := roomData.clients.map fun e => (e.1, e.2.name)
    let clientId := fresh
    let st2 := mapSet st1 roomId ⟨mapSet roomData.clients clientId ⟨userName, none⟩⟩
    let frames := broadcast st2 roomId clientId "peer-joined"
      (.peerJoined clientId userName)
    ⟨st2, .respond 200 (some ⟨clientId, roomId, existingPeers⟩) ::
      frames.map .deliver⟩

/-- Outcome of `handleSignal`, one constructor per `res.writeHead`
status used by the source. -/
inductive SignalStatus where
  | badRequest
  | roomNotFound
  | recipientUnavailable
  | noContent
deriving Repr, DecidableEq

/-- The HTTP status code written for each `handleSignal` outcome. -/
def statusCode : SignalStatus → Nat
  | .badRequest => 400
  | .roomNotFound => 404
  | .recipientUnavailable => 409
  | .noContent => 204

/-- `handleSignal` from `index.js`: validate the four fields, look the
room up under the raw (untrimmed) id, look the target up, require a
non-null stream (`!recipient || !recipient.res` is a single 409
branch), then write one `signal` frame. The registry is returned
unchanged on every path, as in the source. -/
def handleSignal (st : Registry) (room fromId target data : Option String) :
    SignalStatus × Registry × List Frame :=
  if falsyStr room || falsyStr fromId || falsyStr target || falsyStr data then
    (.badRequest, st, [])
  else
    match mapGet st (room.getD "") with
    | none => (.roomNotFound, st, [])
    | some roomData =>
      match mapGet roomData.clients (target.getD "") with
      | none => (.recipientUnavailable, st, [])
      | some recipient =>
        match recipient.res with
        | none => (.recipientUnavailable, st, [])
        | some h =>
          (.noContent, st,
            [sendEvent (target.getD "") h "signal"
              (.signal (fromId.getD "") (data.getD ""))])

/-- `removeClient(roomId, clientId)` from `lib/rooms.js`: no-op if the
room or the client is absent; otherwise delete the client (its stream,
if any, is closed — closure is not tracked here), delete the room when
it became empty, else broadcast `peer-left` to the remaining clients. -/
def removeClient (st : Registry) (roomId clientId : String) :
    Registry × List Frame :=
  match mapGet st roomId with
  | none => (st, [])
  | some room =>
    match mapGet room.clients clientId with
    | none => (st, [])
    | some _client =>
      let clients2 := mapDelete room.clients clientId
      if clients2.isEmpty then
        (mapDelete st roomId, [])
      else
        let st2 := mapSet st roomId ⟨clients2⟩
        (st2, broadcast st2 roomId clientId "peer-left" (.peerLeft clientId))

/-- `handleLeave` from `index.js`: validate, then `removeClient` on the
raw (untrimmed) room id, always answering 204 on the valid path. -/
def handleLeave (st : Registry) (room clientId : Option String) :
    Nat × Registry × List Frame :=
  if falsyStr room || falsyStr clientId then
    (400, st, [])
  else
    let res := removeClient st (room.getD "") (clientId.getD "")
    (204, res.1, res.2)

/-- The attach path of `handleEventStream` from `index.js`: validate the
query params, require the raw room id and client id to be registered,
then set the client's stream handle (`client.res = res`). -/
def handleEventStream (st : Registry) (room clientId : Option String)
    (h : Nat) : Nat × Registry :=
  if falsyStr room || falsyStr clientId then
    (400, st)
  else
    let rid := room.getD ""
    let cid := clientId.getD ""
    match mapGet st rid with
    | none => (404, st)
    | some roomData =>
      match mapGet roomData.clients cid with
      | none => (404, st)
      | some client =>
        (200, mapSet st rid ⟨mapSet roomData.clients cid ⟨client.name, some h⟩⟩)

/-- The `req.on('close', ...)` handler of `handleEventStream`: no-op if
the room or the client entry is gone, otherwise delete the client,
delete the room when it became empty, else broadcast `peer-left`. -/
def onStreamClosed (st : Registry) (roomId clientId : String) :
    Registry × List Frame :=
  match mapGet st roomId with
  | none => (st, [])
  | some currentRoom =>
    match mapGet currentRoom.clients clientId with
    | none => (st, [])
    | some _entry =>
      let clients2 := mapDelete currentRoom.clients clientId
      if clients2.isEmpty then
        (mapDelete st roomId, [])
      else
        let st2 := mapSet st roomId ⟨clients2⟩
        (st2, broadcast st2 roomId clientId "peer-left" (.peerLeft clientId))



/-- Registries reachable from the empty startup registry by completed
operations: join, explicit leave, signal relay, stream attach, stream
close. -/
inductive Reachable : Registry → Prop where
  | init : Reachable []
  | join (st : Registry) (fresh : String) (room name : Option String) :
      Reachable st → Reachable (handleJoin st fresh room name).st
  | leave (st : Registry) (room clientId : Option String) :
      Reachable st → Reachable (handleLeave st room clientId).2.1
  | signal (st : Registry) (room fromId target data : Option String) :
      Reachable st → Reachable (handleSignal st room fromId target data).2.1
  | streamOpen (st : Registry) (room clientId : Option String) (h : Nat) :
      Reachable st → Reachable (handleEventStream st room clientId h).2
  | streamClose (st : Registry) (roomId clientId : String) :
      Reachable st → Reachable (onStreamClosed st roomId clientId).1

/-- No room in the registry has an empty session table. -/
def NoEmptyRooms (st : Registry) : Prop :=
  ∀ r room, mapGet st r = some room → room.clients ≠ []

/-- The peers list carried in a join's 200 response, if any. -/
def joinPeers (out : JoinOut) : List (String × String) :=
  match out.trace with
  | .respond _ (some body) :: _ => body.peers
  | _ => []

/-- The registry after `n` successive joins into the room named
`roomId`, starting from `st0`; the `i`-th join supplies name `names i`
and the id generator returns `ids i`. -/
def joinN (st0 : Registry) (ids names : Nat → String) (roomId : String) :
    Nat → Registry
  | 0 => st0
  | n + 1 =>
    (handleJoin (joinN st0 ids names roomId n) (ids n)
      (some roomId) (some (names n))).st

/-- The expected contents of the joined room after `n` joins: absent for
`n = 0`, else the sessions of the first `n` joiners in join order. -/
def roomAfter (ids names : Nat → String) : Nat → Option Room
  | 0 => none
  | n + 1 => some ⟨(List.range (n + 1)).map fun i =>
      (ids i, ⟨jsName (some (names i)), none⟩)⟩

theorem mapGet_mapSet {α : Type} (m : List (String × α)) (k k' : String) (v : α) :
    mapGet (mapSet m k v) k' = if k' = k then some v else mapGet m k' := by
  induction m with
  | nil => simp [mapGet, mapSet, eq_comm]
  | cons e rest ih =>
    by_cases hek : e.1 = k
    · by_cases hkk : k' = k
      · simp [mapSet, mapGet, hek, hkk]
      · simp [mapSet, mapGet, hek, hkk,
          show ¬ k = k' from fun h => hkk h.symm]
    · by_cases hek' : e.1 = k'
      · simp [mapSet, mapGet, hek, hek',
          show ¬ k' = k from fun h => hek (h ▸ hek')]
      · simp [mapSet, mapGet, hek, hek', ih]

theorem mapGet_mapDelete {α : Type} (m : List (String × α)) (k k' : String) :
    mapGet (mapDelete m k) k' = if k' = k then none else mapGet m k' := by
  induction m with
  | nil => simp [mapGet, mapDelete]
  | cons e rest ih =>
    by_cases hek : e.1 = k
    · by_cases hkk : k' = k
      · subst hkk; simp [mapDelete, hek, ih]
      · simp [mapDelete, mapGet, hek, hkk, ih,
          show ¬ k = k' from fun h => hkk h.symm]
    · by_cases hek' : e.1 = k'
      · simp [mapDelete, mapGet, hek, hek',
          show ¬ k' = k from fun h => hek (h ▸ hek')]
      · simp [mapDelete, mapGet, hek, hek', ih]

theorem mapSet_ne_nil {α : Type} (m : List (String × α)) (k : String) (v : α) :
    mapSet m k v ≠ [] := by
  cases m with
  | nil => simp [mapSet]
  | cons e rest => simp only [mapSet]; split <;> simp

theorem mapSet_of_get_none {α : Type} {m : List (String × α)} {k : String}
    (v : α) (h : mapGet m k = none) : mapSet m k v = m ++ [(k, v)] := by
  induction m with
  | nil => simp [mapSet]
  | cons e rest ih =>
    simp only [mapGet] at h
    by_cases hek : e.1 = k
    · simp [hek] at h
    · simp [mapSet, hek, ih (by simpa [hek] using h)]

theorem mapGet_eq_none_iff {α : Type} (m : List (String × α)) (k : String) :
    mapGet m k = none ↔ ∀ e ∈ m, e.1 ≠ k := by
  induction m with
  | nil => simp [mapGet]
  | cons e rest ih =>
    by_cases hek : e.1 = k <;> simp [mapGet, hek, ih]

theorem mapGet_mem {α : Type} {m : List (String × α)} {k : String} {v : α}
    (h : mapGet m k = some v) : (k, v) ∈ m := by
  induction m with
  | nil => simp [mapGet] at h
  | cons e rest ih =>
    by_cases hek : e.1 = k
    · simp only [mapGet, if_pos hek] at h
      obtain ⟨a, b⟩ := e
      simp only at hek
      subst hek
      cases h
      exact List.mem_cons_self _ _
    · simp [mapGet, hek] at h
      exact List.mem_cons_of_mem _ (ih h)

theorem broadcast_toClient_ne (st : Registry) (roomId ex event : String)
    (p : Payload) : ∀ f ∈ broadcast st roomId ex event p, f.toClient ≠ ex := by
  intro f hf
  unfold broadcast at hf
  match hst : mapGet st roomId with
  | none => simp [hst] at hf
  | some room =>
    simp only [hst, List.mem_filterMap] at hf
    obtain ⟨e, _he, hfe⟩ := hf
    by_cases hex : e.1 = ex
    · simp [hex] at hfe
    · simp only [hex, if_neg hex] at hfe
      match hres : e.2.res with
      | none => simp [hres] at hfe
      | some h =>
        simp [hres, sendEvent] at hfe
        subst hfe
        exact hex

theorem falsyStr_false_of_ne {s : String} (h : s ≠ "") :
    falsyStr (some s) = false := by
  have hne : ¬ s.isEmpty := fun hh => h ((String.isEmpty_iff s).mp hh)
  simp [falsyStr, hne]

/-- C7: a Signal request with any of the four fields absent or empty is
rejected with HTTP 400 `InvalidRequest`; the registry is unchanged and
no frame is written. -/
theorem C7_signal_validation (st : Registry)
    (room fromId target data : Option String)
    (h : (falsyStr room || falsyStr fromId || falsyStr target ||
      falsyStr data) = true) :
    handleSignal st room fromId target data
      = (.badRequest, st, []) ∧ statusCode SignalStatus.badRequest = 400 := by
  refine ⟨?_, rfl⟩
  simp [handleSignal, h]

theorem C7_signal_validation_witness :
    handleSignal [] (some "") (some "a") (some "b") (some "c")
      = (.badRequest, [], []) ∧ statusCode SignalStatus.badRequest = 400 :=
  C7_signal_validation [] (some "") (some "a") (some "b") (some "c") (by decide)

/-- C2: when a Signal request resolves to a target session, a null
stream handle yields 409 `RecipientUnavailable` with no frame written,
and an attached handle yields 204 with exactly one `signal` frame on the
target's stream carrying the caller-supplied sender id and the payload
unmodified. -/
theorem C2_signal_delivery (st : Registry) (room fromV target data : String)
    (rd : Room) (recip : Session)
    (hroom : room ≠ "") (hfrom : fromV ≠ "") (htarget : target ≠ "")
    (hdata : data ≠ "")
    (hr : mapGet st room = some rd)
    (ht : mapGet rd.clients target = some recip) :
    (recip.res = none →
      handleSignal st (some room) (some fromV) (some target) (some data)
        = (.recipientUnavailable, st, []) ∧
      statusCode SignalStatus.recipientUnavailable = 409) ∧
    (∀ h, recip.res = some h →
      handleSignal st (some room) (some fromV) (some target) (some data)
        = (.noContent, st,
           [sendEvent target h "signal" (.signal fromV data)]) ∧
      statusCode SignalStatus.noContent = 204) := by
  have hcond : (falsyStr (some room) || falsyStr (some fromV) ||
      falsyStr (some target) || falsyStr (some data)) = false := by
    simp [falsyStr_false_of_ne, hroom, hfrom, htarget, hdata]
  constructor
  · intro hres
    refine ⟨?_, rfl⟩
    simp [handleSignal, hcond, hr, ht, hres]
  · intro h hres
    refine ⟨?_, rfl⟩
    simp [handleSignal, hcond, hr, ht, hres]

theorem C2_signal_delivery_witness :
    handleSignal [("r", Room.mk [("b", Session.mk "Bea" (some 5))])]
        (some "r") (some "a") (some "b") (some "d")
      = (.noContent, [("r", Room.mk [("b", Session.mk "Bea" (some 5))])],
         [sendEvent "b" 5 "signal" (.signal "a" "d")]) ∧
    statusCode SignalStatus.noContent = 204 :=
  (C2_signal_delivery [("r", Room.mk [("b", Session.mk "Bea" (some 5))])]
      "r" "a" "b" "d" (Room.mk [("b", Session.mk "Bea" (some 5))])
      (Session.mk "Bea" (some 5))
      (by decide) (by decide) (by decide) (by decide)
      (by decide) (by decide)).2 5 rfl

/-- C1 counterexample: in a registry whose room `"r"` exists and holds
only client `"a"`, a well-formed Signal to the unknown target `"b"`
answers 409 `RecipientUnavailable`, not the 404 the claim requires. -/
theorem C1_unknown_target_counterexample :
    (handleSignal [("r", Room.mk [("a", Session.mk "Ada" (some 0))])]
        (some "r") (some "x") (some "b") (some "d")).1
      = SignalStatus.recipientUnavailable ∧
    statusCode (handleSignal [("r", Room.mk [("a", Session.mk "Ada" (some 0))])]
        (some "r") (some "x") (some "b") (some "d")).1 ≠ 404 := by
  decide

/-- C1 amended: for a well-formed Signal whose room exists but whose
target id is not a key of the room's session table, the relay answers
409 `RecipientUnavailable` — the same status as for a null stream
handle, not a distinct 404; 404 is reserved for an absent room. -/
theorem C1_unknown_target_amended (st : Registry)
    (room fromV target data : String) (rd : Room)
    (hroom : room ≠ "") (hfrom : fromV ≠ "") (htarget : target ≠ "")
    (hdata : data ≠ "")
    (hr : mapGet st room = some rd)
    (ht : mapGet rd.clients target = none) :
    handleSignal st (some room) (some fromV) (some target) (some data)
      = (.recipientUnavailable, st, []) ∧
    statusCode SignalStatus.recipientUnavailable = 409 := by
  have hcond : (falsyStr (some room) || falsyStr (some fromV) ||
      falsyStr (some target) || falsyStr (some data)) = false := by
    simp [falsyStr_false_of_ne, hroom, hfrom, htarget, hdata]
  refine ⟨?_, rfl⟩
  simp [handleSignal, hcond, hr, ht]

theorem C1_unknown_target_amended_witness :
    handleSignal [("r", Room.mk [("a", Session.mk "Ada" (some 0))])]
        (some "r") (some "x") (some "b") (some "d")
      = (.recipientUnavailable,
         [("r", Room.mk [("a", Session.mk "Ada" (some 0))])], []) ∧
    statusCode SignalStatus.recipientUnavailable = 409 :=
  C1_unknown_target_amended [("r", Room.mk [("a", Session.mk "Ada" (some 0))])]
    "r" "x" "b" "d" (Room.mk [("a", Session.mk "Ada" (some 0))])
    (by decide) (by decide) (by decide) (by decide) (by decide) (by decide)

/-- C10: the relay never validates the sender: a well-formed Signal to
an attached target succeeds and carries the caller-supplied `from` id
verbatim in the delivered frame, even when that id is registered in no
session of the room. -/
theorem C10_sender_not_validated (st : Registry)
    (room fromV target data : String) (rd : Room) (recip : Session) (h : Nat)
    (hroom : room ≠ "") (hfrom : fromV ≠ "") (htarget : target ≠ "")
    (hdata : data ≠ "")
    (hr : mapGet st room = some rd)
    (ht : mapGet rd.clients target = some recip)
    (hres : recip.res = some h)
    (hnotmem : mapGet rd.clients fromV = none) :
    handleSignal st (some room) (some fromV) (some target) (some data)
      = (.noContent, st, [sendEvent target h "signal" (.signal fromV data)]) := by
  have hcond : (falsyStr (some room) || falsyStr (some fromV) ||
      falsyStr (some target) || falsyStr (some data)) = false := by
    simp [falsyStr_false_of_ne, hroom, hfrom, htarget, hdata]
  simp [handleSignal, hcond, hr, ht, hres]

theorem C10_sender_not_validated_witness :
    handleSignal [("r", Room.mk [("b", Session.mk "Bea" (some 5))])]
        (some "r") (some "ghost") (some "b") (some "d")
      = (.noContent, [("r", Room.mk [("b", Session.mk "Bea" (some 5))])],
         [sendEvent "b" 5 "signal" (.signal "ghost" "d")]) :=
  C10_sender_not_validated [("r", Room.mk [("b", Session.mk "Bea" (some 5))])]
    "r" "ghost" "b" "d" (Room.mk [("b", Session.mk "Bea" (some 5))])
    (Session.mk "Bea" (some 5)) 5
    (by decide) (by decide) (by decide) (by decide)
    (by decide) (by decide) (by decide) (by decide)

theorem removeClient_room_absent {st : Registry} {roomId clientId : String}
    (h : mapGet st roomId = none) :
    removeClient st roomId clientId = (st, []) := by
  simp [removeClient, h]

theorem removeClient_client_absent {st : Registry} {roomId clientId : String}
    {room : Room} (h : mapGet st roomId = some room)
    (hc : mapGet room.clients clientId = none) :
    removeClient st roomId clientId = (st, []) := by
  simp [removeClient, h, hc]

theorem onStreamClosed_noop {st : Registry} {roomId clientId : String}
    (h : mapGet st roomId = none ∨
      ∃ room, mapGet st roomId = some room ∧
        mapGet room.clients clientId = none) :
    onStreamClosed st roomId clientId = (st, []) := by
  rcases h with h | ⟨room, h, hc⟩
  · simp [onStreamClosed, h]
  · simp [onStreamClosed, h, hc]

theorem removeClient_removed {st : Registry} {roomId clientId : String} :
    mapGet (removeClient st roomId clientId).1 roomId = none ∨
    ∃ room, mapGet (removeClient st roomId clientId).1 roomId = some room ∧
      mapGet room.clients clientId = none := by
  unfold removeClient
  match h : mapGet st roomId with
  | none => exact .inl (by simp [h])
  | some room =>
    match hc : mapGet room.clients clientId with
    | none => exact .inr ⟨room, by simp [h, hc], hc⟩
    | some c =>
      cases he : (mapDelete room.clients clientId).isEmpty with
      | true =>
        left
        simp [h, hc, he, mapGet_mapDelete]
      | false =>
        right
        refine ⟨⟨mapDelete room.clients clientId⟩, ?_, ?_⟩
        · simp [h, hc, he, mapGet_mapSet]
        · simp [mapGet_mapDelete]

theorem removeClient_noop {st : Registry} {roomId clientId : String}
    (h : mapGet st roomId = none ∨
      ∃ room, mapGet st roomId = some room ∧
        mapGet room.clients clientId = none) :
    removeClient st roomId clientId = (st, []) := by
  rcases h with h | ⟨room, h, hc⟩
  · exact removeClient_room_absent h
  · exact removeClient_client_absent h hc

theorem onStreamClosed_removed {st : Registry} {roomId clientId : String} :
    mapGet (onStreamClosed st roomId clientId).1 roomId = none ∨
    ∃ room, mapGet (onStreamClosed st roomId clientId).1 roomId = some room ∧
      mapGet room.clients clientId = none := by
  unfold onStreamClosed
  match h : mapGet st roomId with
  | none => exact .inl (by simp [h])
  | some room =>
    match hc : mapGet room.clients clientId with
    | none => exact .inr ⟨room, by simp [h, hc], hc⟩
    | some c =>
      cases he : (mapDelete room.clients clientId).isEmpty with
      | true =>
        left
        simp [h, hc, he, mapGet_mapDelete]
      | false =>
        right
        refine ⟨⟨mapDelete room.clients clientId⟩, ?_, ?_⟩
        · simp [h, hc, he, mapGet_mapSet]
        · simp [mapGet_mapDelete]

/-- C5: session teardown is idempotent. Removing a session whose room or
entry is already gone is a no-op with no frame emitted; and after one
teardown (explicit `removeClient` or the stream-close handler), running
either teardown trigger again leaves the registry unchanged and emits no
`peer-left` frame, so the session is deleted at most once however many
triggers fire. -/
theorem C5_teardown_idempotent (st : Registry) (roomId clientId : String) :
    (mapGet st roomId = none →
      removeClient st roomId clientId = (st, []) ∧
      onStreamClosed st roomId clientId = (st, [])) ∧
    (∀ room, mapGet st roomId = some room →
      mapGet room.clients clientId = none →
      removeClient st roomId clientId = (st, []) ∧
      onStreamClosed st roomId clientId = (st, [])) ∧
    removeClient (removeClient st roomId clientId).1 roomId clientId
      = ((removeClient st roomId clientId).1, []) ∧
    onStreamClosed (removeClient st roomId clientId).1 roomId clientId
      = ((removeClient st roomId clientId).1, []) ∧
    removeClient (onStreamClosed st roomId clientId).1 roomId clientId
      = ((onStreamClosed st roomId clientId).1, []) := by
  refine ⟨?_, ?_, ?_, ?_, ?_⟩
  · intro h
    exact ⟨removeClient_noop (.inl h), onStreamClosed_noop (.inl h)⟩
  · intro room h hc
    exact ⟨removeClient_noop (.inr ⟨room, h, hc⟩),
      onStreamClosed_noop (.inr ⟨room, h, hc⟩)⟩
  · exact removeClient_noop removeClient_removed
  · exact onStreamClosed_noop removeClient_removed
  · exact removeClient_noop onStreamClosed_removed

theorem C5_teardown_idempotent_witness :
    removeClient
        (removeClient [("r", Room.mk [("a", Session.mk "Ada" (some 0))])]
          "r" "a").1 "r" "a"
      = ((removeClient [("r", Room.mk [("a", Session.mk "Ada" (some 0))])]
          "r" "a").1, []) ∧
    onStreamClosed
        (removeClient [("r", Room.mk [("a", Session.mk "Ada" (some 0))])]
          "r" "a").1 "r" "a"
      = ((removeClient [("r", Room.mk [("a", Session.mk "Ada" (some 0))])]
          "r" "a").1, []) ∧
    removeClient ([] : Registry) "r" "a" = ([], []) ∧
    (removeClient [("r", Room.mk [("a", Session.mk "Ada" (some 0))])] "r" "b"
      = ([("r", Room.mk [("a", Session.mk "Ada" (some 0))])], [])) :=
  ⟨(C5_teardown_idempotent
      [("r", Room.mk [("a", Session.mk "Ada" (some 0))])] "r" "a").2.2.1,
   (C5_teardown_idempotent
      [("r", Room.mk [("a", Session.mk "Ada" (some 0))])] "r" "a").2.2.2.1,
   ((C5_teardown_idempotent ([] : Registry) "r" "a").1 (by decide)).1,
   (((C5_teardown_idempotent
      [("r", Room.mk [("a", Session.mk "Ada" (some 0))])] "r" "b").2.1
      (Room.mk [("a", Session.mk "Ada" (some 0))]) (by decide) (by decide))).1⟩

theorem isEmpty_false_iff (s : String) : s.isEmpty = false ↔ s ≠ "" := by
  constructor
  · intro h hs
    subst hs
    exact absurd h (by decide)
  · intro h
    cases hb : s.isEmpty with
    | false => rfl
    | true => exact absurd ((String.isEmpty_iff s).mp hb) h

theorem trimString_empty : trimString "" = "" := by decide

theorem sliceString_eq_empty {s : String} (h : sliceString s 64 = "") :
    s = "" := by
  cases s with
  | mk l =>
    cases l with
    | nil => rfl
    | cons c cs =>
      exfalso
      have hd : (sliceString ⟨c :: cs⟩ 64).data = [] := by
        rw [h]
      simp [sliceString] at hd

theorem handleJoin_valid (st : Registry) (fresh : String)
    (room name : Option String)
    (hr : (jsTrim room).isEmpty = false) (hn : (jsName name).isEmpty = false) :
    handleJoin st fresh room name =
      ⟨mapSet (getRoom st (jsTrim room)).1 (jsTrim room)
          ⟨mapSet (getRoom st (jsTrim room)).2.clients fresh
            ⟨jsName name, none⟩⟩,
       .respond 200 (some ⟨fresh, jsTrim room,
           (getRoom st (jsTrim room)).2.clients.map fun e => (e.1, e.2.name)⟩) ::
         (broadcast
           (mapSet (getRoom st (jsTrim room)).1 (jsTrim room)
             ⟨mapSet (getRoom st (jsTrim room)).2.clients fresh
               ⟨jsName name, none⟩⟩)
           (jsTrim room) fresh "peer-joined"
           (.peerJoined fresh (jsName name))).map .deliver⟩ := by
  have hcond : ((jsTrim room).isEmpty || (jsName name).isEmpty) = false := by
    rw [hr, hn]
    rfl
  simp only [handleJoin, hcond, Bool.false_eq_true, if_false]

/-- C6: a valid Join emits its observable outputs in the order "HTTP
response first, then the `peer-joined` broadcast frames", and every
broadcast frame is addressed to a client other than the fresh client
id, so the joiner can never receive its own `peer-joined` and no peer
is notified before the response exists. -/
theorem C6_join_response_before_broadcast (st : Registry) (fresh : String)
    (room name : Option String)
    (hr : (jsTrim room).isEmpty = false) (hn : (jsName name).isEmpty = false) :
    ∃ body frames,
      (handleJoin st fresh room name).trace
        = .respond 200 (some body) :: List.map .deliver frames ∧
      body.clientId = fresh ∧
      ∀ f ∈ frames, Frame.toClient f ≠ fresh := by
  refine ⟨⟨fresh, jsTrim room,
      (getRoom st (jsTrim room)).2.clients.map fun e => (e.1, e.2.name)⟩,
    broadcast
      (mapSet (getRoom st (jsTrim room)).1 (jsTrim room)
        ⟨mapSet (getRoom st (jsTrim room)).2.clients fresh ⟨jsName name, none⟩⟩)
      (jsTrim room) fresh "peer-joined" (.peerJoined fresh (jsName name)),
    ?_, rfl, broadcast_toClient_ne _ _ _ _ _⟩
  rw [handleJoin_valid st fresh room name hr hn]

theorem C6_join_response_before_broadcast_witness :
    ∃ body frames,
      (handleJoin [("r", Room.mk [("a", Session.mk "Ada" (some 0))])]
          "B" (some "r") (some "Bea")).trace
        = .respond 200 (some body) :: List.map .deliver frames ∧
      body.clientId = "B" ∧
      ∀ f ∈ frames, Frame.toClient f ≠ "B" :=
  C6_join_response_before_broadcast
    [("r", Room.mk [("a", Session.mk "Ada" (some 0))])]
    "B" (some "r") (some "Bea") (by decide) (by decide)

/-- C9: Join never fails for room-related reasons: whenever the room
and the name are non-empty after trimming, Join answers 200 with the
freshly generated client id, for every registry state (the room is
created on demand, and no bound on room count or room size is
checked). -/
theorem C9_join_always_succeeds (st : Registry) (fresh r n : String)
    (hr : trimString r ≠ "") (hn : trimString n ≠ "") :
    ∃ body frames,
      (handleJoin st fresh (some r) (some n)).trace
        = .respond 200 (some body) :: frames ∧
      body.clientId = fresh ∧
      body.room = trimString r := by
  have hrne : r ≠ "" := fun h => hr (h ▸ trimString_empty)
  have hnne : n ≠ "" := fun h => hn (h ▸ trimString_empty)
  have hjt : jsTrim (some r) = trimString r := by
    rw [jsTrim, if_neg (by simpa [isEmpty_false_iff] using hrne)]
  have h1 : (jsTrim (some r)).isEmpty = false := by
    rw [hjt]
    exact (isEmpty_false_iff _).mpr hr
  have h2 : (jsName (some n)).isEmpty = false := by
    rw [jsName, if_neg (by simpa [isEmpty_false_iff] using hnne)]
    exact (isEmpty_false_iff _).mpr fun hc => hn (sliceString_eq_empty hc)
  refine ⟨⟨fresh, jsTrim (some r),
      (getRoom st (jsTrim (some r))).2.clients.map fun e => (e.1, e.2.name)⟩,
    (broadcast
      (mapSet (getRoom st (jsTrim (some r))).1 (jsTrim (some r))
        ⟨mapSet (getRoom st (jsTrim (some r))).2.clients fresh
          ⟨jsName (some n), none⟩⟩)
      (jsTrim (some r)) fresh "peer-joined"
      (.peerJoined fresh (jsName (some n)))).map .deliver,
    ?_, rfl, hjt⟩
  rw [handleJoin_valid st fresh (some r) (some n) h1 h2]

theorem C9_join_always_succeeds_witness :
    ∃ body frames,
      (handleJoin [] "A" (some " lobby ") (some "Ada")).trace
        = .respond 200 (some body) :: frames ∧
      body.clientId = "A" ∧
      body.room = trimString " lobby " :=
  C9_join_always_succeeds [] "A" " lobby " "Ada" (by decide) (by decide)

theorem isEmpty_false_ne_nil {α : Type} {l : List α}
    (h : l.isEmpty = false) : l ≠ [] := by
  cases l <;> simp_all

theorem noEmpty_join {st : Registry} (fresh : String)
    (room name : Option String) (hst : NoEmptyRooms st) :
    NoEmptyRooms (handleJoin st fresh room name).st := by
  cases hc : ((jsTrim room).isEmpty || (jsName name).isEmpty) with
  | true =>
    simp only [handleJoin, hc, if_true]
    exact hst
  | false =>
    have h1 : (jsTrim room).isEmpty = false := by
      cases h : (jsTrim room).isEmpty
      · rfl
      · rw [h] at hc; simp at hc
    have h2 : (jsName name).isEmpty = false := by
      cases h : (jsName name).isEmpty
      · rfl
      · rw [h] at hc; simp at hc
    rw [handleJoin_valid st fresh room name h1 h2]
    intro r rm hr
    rw [mapGet_mapSet] at hr
    by_cases hrk : r = jsTrim room
    · rw [if_pos hrk] at hr
      cases hr
      exact mapSet_ne_nil _ _ _
    · rw [if_neg hrk] at hr
      unfold getRoom at hr
      cases hg : mapGet st (jsTrim room) with
      | some room0 =>
        rw [hg] at hr
        exact hst r rm hr
      | none =>
        rw [hg] at hr
        simp only at hr
        rw [mapGet_mapSet, if_neg hrk] at hr
        exact hst r rm hr

theorem noEmpty_removeClient {st : Registry} (roomId clientId : String)
    (hst : NoEmptyRooms st) :
    NoEmptyRooms (removeClient st roomId clientId).1 := by
  unfold removeClient
  cases h : mapGet st roomId with
  | none => simp only [h]; exact hst
  | some room =>
    cases hc : mapGet room.clients clientId with
    | none => simp only [h, hc]; exact hst
    | some c =>
      cases he : (mapDelete room.clients clientId).isEmpty with
      | true =>
        simp only [h, hc, he, if_true]
        intro r rm hr
        rw [mapGet_mapDelete] at hr
        by_cases hrk : r = roomId
        · rw [if_pos hrk] at hr
          cases hr
        · rw [if_neg hrk] at hr
          exact hst r rm hr
      | false =>
        simp only [h, hc, he, Bool.false_eq_true, if_false]
        intro r rm hr
        rw [mapGet_mapSet] at hr
        by_cases hrk : r = roomId
        · rw [if_pos hrk] at hr
          cases hr
          exact isEmpty_false_ne_nil he
        · rw [if_neg hrk] at hr
          exact hst r rm hr

theorem noEmpty_onStreamClosed {st : Registry} (roomId clientId : String)
    (hst : NoEmptyRooms st) :
    NoEmptyRooms (onStreamClosed st roomId clientId).1 := by
  unfold onStreamClosed
  cases h : mapGet st roomId with
  | none => simp only [h]; exact hst
  | some room =>
    cases hc : mapGet room.clients clientId with
    | none => simp only [h, hc]; exact hst
    | some c =>
      cases he : (mapDelete room.clients clientId).isEmpty with
      | true =>
        simp only [h, hc, he, if_true]
        intro r rm hr
        rw [mapGet_mapDelete] at hr
        by_cases hrk : r = roomId
        · rw [if_pos hrk] at hr
          cases hr
        · rw [if_neg hrk] at hr
          exact hst r rm hr
      | false =>
        simp only [h, hc, he, Bool.false_eq_true, if_false]
        intro r rm hr
        rw [mapGet_mapSet] at hr
        by_cases hrk : r = roomId
        · rw [if_pos hrk] at hr
          cases hr
          exact isEmpty_false_ne_nil he
        · rw [if_neg hrk] at hr
          exact hst r rm hr

theorem handleSignal_state (st : Registry)
    (room fromId target data : Option String) :
    (handleSignal st room fromId target data).2.1 = st := by
  unfold handleSignal
  split
  · rfl
  · split
    · rfl
    · split
      · rfl
      · split <;> rfl

theorem noEmpty_handleLeave {st : Registry} (room clientId : Option String)
    (hst : NoEmptyRooms st) :
    NoEmptyRooms (handleLeave st room clientId).2.1 := by
  unfold handleLeave
  split
  · exact hst
  · exact noEmpty_removeClient _ _ hst

theorem noEmpty_handleEventStream {st : Registry}
    (room clientId : Option String) (h : Nat) (hst : NoEmptyRooms st) :
    NoEmptyRooms (handleEventStream st room clientId h).2 := by
  unfold handleEventStream
  split
  · exact hst
  · cases hg : mapGet st (room.getD "") with
    | none => simp only [hg]; exact hst
    | some roomData =>
      cases hc : mapGet roomData.clients (clientId.getD "") with
      | none => simp only [hg, hc]; exact hst
      | some client =>
        simp only [hg, hc]
        intro r rm hr
        rw [mapGet_mapSet] at hr
        by_cases hrk : r = room.getD ""
        · rw [if_pos hrk] at hr
          cases hr
          exact mapSet_ne_nil _ _ _
        · rw [if_neg hrk] at hr
          exact hst r rm hr

theorem reachable_noEmpty {st : Registry} (h : Reachable st) :
    NoEmptyRooms st := by
  induction h with
  | init => intro r room h; simp [mapGet] at h
  | join st fresh room name _ ih => exact noEmpty_join fresh room name ih
  | leave st room clientId _ ih => exact noEmpty_handleLeave room clientId ih
  | signal st room fromId target data _ ih =>
    rw [handleSignal_state]
    exact ih
  | streamOpen st room clientId hh _ ih =>
    exact noEmpty_handleEventStream room clientId hh ih
  | streamClose st roomId clientId _ ih =>
    exact noEmpty_onStreamClosed roomId clientId ih

/-- C4: after every completed operation, a room id is in the registry
only while its session table is non-empty: in every registry reachable
from startup by joins, leaves, signals, stream attaches and stream
closes, a registered room has a non-empty client table (rooms are
created by the join that inserts their first session, and deleted in
the same step that removes their last session). -/
theorem C4_room_present_iff_nonempty (st : Registry) (hst : Reachable st)
    (r : String) (room : Room) (h : mapGet st r = some room) :
    room.clients ≠ [] :=
  reachable_noEmpty hst r room h

theorem C4_room_present_iff_nonempty_witness :
    (Room.mk [("A", Session.mk "Ada" none)]).clients ≠ [] :=
  C4_room_present_iff_nonempty
    (handleJoin [] "A" (some "r") (some "Ada")).st
    (Reachable.join [] "A" (some "r") (some "Ada") Reachable.init)
    "r" (Room.mk [("A", Session.mk "Ada" none)]) (by decide)

/-- C8 counterexample: the registry holds room `"r1"` with an attached
client `"b"`. The identifier `" r1 "` trims to `"r1"`, yet a
well-formed Signal naming room `" r1 "` answers 404 `RoomNotFound`:
`handleSignal` uses the raw identifier as the registry key, so
whitespace-differing identifiers do not refer to the same room there,
contradicting the claim. -/
theorem C8_trim_counterexample :
    trimString " r1 " = "r1" ∧
    mapGet [("r1", Room.mk [("b", Session.mk "Bea" (some 1))])]
        (trimString " r1 ")
      = some (Room.mk [("b", Session.mk "Bea" (some 1))]) ∧
    (handleSignal [("r1", Room.mk [("b", Session.mk "Bea" (some 1))])]
        (some " r1 ") (some "a") (some "b") (some "x")).1
      = SignalStatus.roomNotFound := by
  decide

/-- C8 amended: only Join strips surrounding whitespace from the room
identifier before using it as the registry key; Signal, Leave, and
stream open use the raw identifier, so identifiers differing only in
surrounding whitespace refer to the same room for Join but not for the
other operations. -/
theorem C8_only_join_trims (st : Registry)
    (fresh r n cid fromV target data : String) (h : Nat) :
    (trimString r ≠ "" → trimString n ≠ "" →
      mapGet (handleJoin st fresh (some r) (some n)).st (trimString r)
        ≠ none) ∧
    (r ≠ "" → fromV ≠ "" → target ≠ "" → data ≠ "" → mapGet st r = none →
      handleSignal st (some r) (some fromV) (some target) (some data)
        = (.roomNotFound, st, [])) ∧
    (r ≠ "" → cid ≠ "" → mapGet st r = none →
      handleLeave st (some r) (some cid) = (204, st, [])) ∧
    (r ≠ "" → cid ≠ "" → mapGet st r = none →
      handleEventStream st (some r) (some cid) h = (404, st)) := by
  refine ⟨?_, ?_, ?_, ?_⟩
  · intro hr hn
    have hrne : r ≠ "" := fun hh => hr (hh ▸ trimString_empty)
    have hnne : n ≠ "" := fun hh => hn (hh ▸ trimString_empty)
    have hjt : jsTrim (some r) = trimString r := by
      rw [jsTrim, if_neg (by simpa [isEmpty_false_iff] using hrne)]
    have h1 : (jsTrim (some r)).isEmpty = false := by
      rw [hjt]
      exact (isEmpty_false_iff _).mpr hr
    have h2 : (jsName (some n)).isEmpty = false := by
      rw [jsName, if_neg (by simpa [isEmpty_false_iff] using hnne)]
      exact (isEmpty_false_iff _).mpr fun hc => hn (sliceString_eq_empty hc)
    rw [handleJoin_valid st fresh (some r) (some n) h1 h2]
    simp only [hjt] at *
    rw [mapGet_mapSet, if_pos rfl]
    simp
  · intro hr hf ht hd hnone
    have hcond : (falsyStr (some r) || falsyStr (some fromV) ||
        falsyStr (some target) || falsyStr (some data)) = false := by
      simp [falsyStr_false_of_ne, hr, hf, ht, hd]
    simp [handleSignal, hcond, hnone]
  · intro hr hc hnone
    have hcond : (falsyStr (some r) || falsyStr (some cid)) = false := by
      simp [falsyStr_false_of_ne, hr, hc]
    simp [handleLeave, hcond, removeClient_room_absent hnone]
  · intro hr hc hnone
    have hcond : (falsyStr (some r) || falsyStr (some cid)) = false := by
      simp [falsyStr_false_of_ne, hr, hc]
    simp [handleEventStream, hcond, hnone]

theorem C8_only_join_trims_witness :
    mapGet (handleJoin [("r1", Room.mk [("b", Session.mk "Bea" (some 1))])]
        "A" (some " r1 ") (some "Ada")).st (trimString " r1 ") ≠ none ∧
    handleSignal [("r1", Room.mk [("b", Session.mk "Bea" (some 1))])]
        (some " r1 ") (some "a") (some "b") (some "x")
      = (.roomNotFound,
         [("r1", Room.mk [("b", Session.mk "Bea" (some 1))])], []) ∧
    handleLeave [("r1", Room.mk [("b", Session.mk "Bea" (some 1))])]
        (some " r1 ") (some "b")
      = (204, [("r1", Room.mk [("b", Session.mk "Bea" (some 1))])], []) ∧
    handleEventStream [("r1", Room.mk [("b", Session.mk "Bea" (some 1))])]
        (some " r1 ") (some "b") 7
      = (404, [("r1", Room.mk [("b", Session.mk "Bea" (some 1))])]) :=
  ⟨(C8_only_join_trims [("r1", Room.mk [("b", Session.mk "Bea" (some 1))])]
      "A" " r1 " "Ada" "b" "a" "b" "x" 7).1 (by decide) (by decide),
   (C8_only_join_trims [("r1", Room.mk [("b", Session.mk "Bea" (some 1))])]
      "A" " r1 " "Ada" "b" "a" "b" "x" 7).2.1
      (by decide) (by decide) (by decide) (by decide) (by decide),
   (C8_only_join_trims [("r1", Room.mk [("b", Session.mk "Bea" (some 1))])]
      "A" " r1 " "Ada" "b" "a" "b" "x" 7).2.2.1
      (by decide) (by decide) (by decide),
   (C8_only_join_trims [("r1", Room.mk [("b", Session.mk "Bea" (some 1))])]
      "A" " r1 " "Ada" "b" "a" "b" "x" 7).2.2.2
      (by decide) (by decide) (by decide)⟩

theorem joinN_mapGet (st0 : Registry) (ids names : Nat → String)
    (roomId : String) (n : Nat)
    (hkey : (jsTrim (some roomId)).isEmpty = false)
    (h0 : mapGet st0 (jsTrim (some roomId)) = none)
    (hnames : ∀ i, i < n → (jsName (some (names i))).isEmpty = false)
    (hids : ∀ i, i < n → ∀ j, j < i → ids j ≠ ids i) :
    mapGet (joinN st0 ids names roomId n) (jsTrim (some roomId))
      = roomAfter ids names n := by
  induction n with
  | zero => exact h0
  | succ m ih =>
    have ihm := ih (fun i hi => hnames i (Nat.lt_succ_of_lt hi))
      (fun i hi => hids i (Nat.lt_succ_of_lt hi))
    show mapGet (handleJoin (joinN st0 ids names roomId m) (ids m)
        (some roomId) (some (names m))).st (jsTrim (some roomId)) = _
    rw [handleJoin_valid _ _ _ _ hkey (hnames m (Nat.lt_succ_self m))]
    simp only
    rw [mapGet_mapSet, if_pos rfl]
    cases m with
    | zero =>
      simp only [roomAfter] at ihm
      unfold getRoom
      rw [ihm]
      simp [roomAfter, mapSet, List.range_succ]
    | succ p =>
      simp only [roomAfter] at ihm
      unfold getRoom
      rw [ihm]
      simp only
      have hfreshm : mapGet ((List.range (p + 1)).map fun i =>
          (ids i, (⟨jsName (some (names i)), none⟩ : Session))) (ids (p + 1))
            = none := by
        rw [mapGet_eq_none_iff]
        intro e he
        rw [List.mem_map] at he
        obtain ⟨i, hi, rfl⟩ := he
        rw [List.mem_range] at hi
        exact hids (p + 1) (Nat.lt_succ_self _) i hi
      rw [mapSet_of_get_none _ hfreshm]
      rw [roomAfter, List.range_succ (n := p + 1), List.map_append]
      rfl

/-- C3: with `N` joins into a fresh room and no other operations, the
peers list answered to the `N`-th joiner lists exactly the `N − 1`
earlier joiners, in join order, each with its stored display name, and
does not contain the `N`-th joiner's freshly generated client id. -/
theorem C3_nth_join_peers (st0 : Registry) (ids names : Nat → String)
    (roomId : String) (N : Nat) (hN : 0 < N)
    (hkey : (jsTrim (some roomId)).isEmpty = false)
    (h0 : mapGet st0 (jsTrim (some roomId)) = none)
    (hnames : ∀ i, i < N → (jsName (some (names i))).isEmpty = false)
    (hids : ∀ i, i < N → ∀ j, j < i → ids j ≠ ids i) :
    joinPeers (handleJoin (joinN st0 ids names roomId (N - 1)) (ids (N - 1))
        (some roomId) (some (names (N - 1))))
      = (List.range (N - 1)).map (fun i => (ids i, jsName (some (names i)))) ∧
    ids (N - 1) ∉ (joinPeers (handleJoin (joinN st0 ids names roomId (N - 1))
        (ids (N - 1)) (some roomId) (some (names (N - 1))))).map Prod.fst := by
  have hpeers : joinPeers (handleJoin (joinN st0 ids names roomId (N - 1))
      (ids (N - 1)) (some roomId) (some (names (N - 1))))
      = (List.range (N - 1)).map fun i => (ids i, jsName (some (names i))) := by
    rw [handleJoin_valid _ _ _ _ hkey (hnames (N - 1) (Nat.sub_lt hN Nat.one_pos))]
    have hm := joinN_mapGet st0 ids names roomId (N - 1) hkey h0
      (fun i hi => hnames i (Nat.lt_of_lt_of_le hi (Nat.sub_le N 1)))
      (fun i hi => hids i (Nat.lt_of_lt_of_le hi (Nat.sub_le N 1)))
    cases hN1 : N - 1 with
    | zero =>
      rw [hN1] at hm
      simp only [roomAfter] at hm
      simp only [joinPeers]
      unfold getRoom
      rw [hm]
      simp
    | succ p =>
      rw [hN1] at hm
      simp only [roomAfter] at hm
      simp only [joinPeers]
      unfold getRoom
      rw [hm]
      simp only
      rw [List.map_map]
      rfl
  refine ⟨hpeers, ?_⟩
  rw [hpeers, List.map_map]
  intro hmem
  rw [List.mem_map] at hmem
  obtain ⟨i, hi, hei⟩ := hmem
  rw [List.mem_range] at hi
  exact hids (N - 1) (Nat.sub_lt hN Nat.one_pos) i hi hei

theorem C3_nth_join_peers_witness :
    joinPeers (handleJoin
        (joinN [] (fun i => if i = 0 then "A" else "B")
          (fun i => if i = 0 then "Ada" else "Bea") "r" 1)
        "B" (some "r") (some "Bea"))
      = [("A", "Ada")] ∧
    "B" ∉ [("A", "Ada")].map Prod.fst := by
  have h := C3_nth_join_peers [] (fun i => if i = 0 then "A" else "B")
    (fun i => if i = 0 then "Ada" else "Bea") "r" 2 (by decide)
    (by decide) (by decide) (by decide) (by decide)
  refine ⟨?_, ?_⟩
  · exact h.1.trans (by decide)
  · intro hmem
    exact absurd hmem (by decide)

end ChatZilla
